import Mathlib

/-!
Verification development for the SPF pack map generator
(`scripts/generate-map.py`).

The script scans a directory tree of markdown documents, extracts a YAML
frontmatter record from each, and renders a navigation map plus an entity
index.  This file gives a shallow embedding of the script's data model and
functions, and proves (or refutes) the frozen specification claims about it.

Modelling conventions:
* file contents are `String`s; an unreadable file is `content = none`;
* `date.today()` is passed in as an explicit `Date` parameter;
* the external YAML library (`yaml.safe_load`) is modelled by `simpleYaml`,
  a flat `key: value` scalar-mapping parser (see its doc comment);
* Python string, list and regex operations are translated operation by
  operation, over character lists so that everything evaluates; Python's
  `sorted` (a stable sort) is modelled by the stable insertion sort;
* comments on the definitions name the source lines they embed.
-/

/-! ## Python string primitives -/

/-- Python `\s` on ASCII text. -/
def isPyWs (c : Char) : Bool :=
  c == ' ' || c == '\t' || c == '\n' || c == '\r' || c == '\x0b' || c == '\x0c'

/-- The regex class `[A-Z]`. -/
def isUpperAscii (c : Char) : Bool :=
  65 ≤ c.toNat && c.toNat ≤ 90

/-- Helper of `splitChar`: accumulate the current field (reversed). -/
def splitCharAux (sep : Char) : List Char → List Char → List String
  | acc, [] => [String.mk acc.reverse]
  | acc, c :: cs =>
    if c == sep then String.mk acc.reverse :: splitCharAux sep [] cs
    else splitCharAux sep (c :: acc) cs

/-- Python `s.split(sep)` for a one-character separator (so
`"".split(".") == [""]`, and separators at the ends yield empty fields). -/
def splitChar (sep : Char) (s : String) : List String :=
  splitCharAux sep [] s.toList

/-- Python `s.strip()` on ASCII text. -/
def pyTrim (s : String) : String :=
  String.mk (((s.toList.dropWhile isPyWs).reverse.dropWhile isPyWs).reverse)

/-- Python `s.replace(a, b)` for one-character arguments. -/
def replaceChar (a b : Char) (s : String) : String :=
  String.mk (s.toList.map (fun c => if c == a then b else c))

/-- Lexicographic comparison of character lists by code point, the order
Python uses on strings. -/
def listLe : List Char → List Char → Bool
  | [], _ => true
  | _ :: _, [] => false
  | c :: cs, d :: ds =>
    if c.toNat < d.toNat then true
    else if d.toNat < c.toNat then false
    else listLe cs ds

/-- Python string `<=`. -/
def strLeB (a b : String) : Bool :=
  listLe a.toList b.toList

theorem listLe_total : ∀ a b : List Char, listLe a b || listLe b a
  | [], _ => by simp [listLe]
  | _ :: _, [] => by simp [listLe]
  | c :: cs, d :: ds => by
    by_cases h1 : c.toNat < d.toNat
    · simp [listLe, h1]
    · by_cases h2 : d.toNat < c.toNat
      · simp [listLe, h1, h2]
      · have := listLe_total cs ds
        simp [listLe, h1, h2]
        simpa using this

theorem listLe_trans : ∀ a b c : List Char,
    listLe a b = true → listLe b c = true → listLe a c = true
  | [], _, _ => by intro _ _; simp [listLe]
  | x :: xs, [], _ => by intro h _; simp [listLe] at h
  | x :: xs, y :: ys, [] => by intro _ h; simp [listLe] at h
  | x :: xs, y :: ys, z :: zs => by
    intro h1 h2
    simp only [listLe] at h1 h2 ⊢
    by_cases hyx : y.toNat < x.toNat
    · have hxy : ¬ x.toNat < y.toNat := by omega
      simp [hxy, hyx] at h1
    · by_cases hzy : z.toNat < y.toNat
      · have hyz : ¬ y.toNat < z.toNat := by omega
        simp [hyz, hzy] at h2
      · by_cases hxy : x.toNat < y.toNat
        · have hxz : x.toNat < z.toNat := by omega
          simp [hxz]
        · by_cases hyz : y.toNat < z.toNat
          · have hxz : x.toNat < z.toNat := by omega
            simp [hxz]
          · have h1' : listLe xs ys = true := by simpa [hxy, hyx] using h1
            have h2' : listLe ys zs = true := by simpa [hyz, hzy] using h2
            have hxz : ¬ x.toNat < z.toNat := by omega
            have hzx : ¬ z.toNat < x.toNat := by omega
            simp only [hxz, hzx, if_false]
            exact listLe_trans xs ys zs h1' h2'

theorem strLeB_total (a b : String) : strLeB a b || strLeB b a :=
  listLe_total a.toList b.toList

theorem strLeB_trans (a b c : String) :
    strLeB a b = true → strLeB b c = true → strLeB a c = true :=
  listLe_trans a.toList b.toList c.toList

/-! ## A stable sort, as Python `sorted` -/

/-- The ordering relation of a boolean comparator. -/
def boolRel {α : Type} (le : α → α → Bool) : α → α → Prop :=
  fun a b => le a b = true

instance {α : Type} (le : α → α → Bool) : DecidableRel (boolRel le) :=
  fun _ _ => instDecidableEqBool _ _

/-- Python `sorted(l, key=...)`: a stable sort by the comparator,
modelled by the (stable) insertion sort. -/
def sortBy {α : Type} (le : α → α → Bool) (l : List α) : List α :=
  List.insertionSort (boolRel le) l

theorem mem_sortBy {α : Type} {le : α → α → Bool} {l : List α} {x : α} :
    x ∈ sortBy le l ↔ x ∈ l :=
  List.mem_insertionSort (boolRel le)

theorem sortBy_perm {α : Type} (le : α → α → Bool) (l : List α) :
    (sortBy le l).Perm l :=
  List.perm_insertionSort (boolRel le) l

theorem sortBy_sorted {α : Type} (le : α → α → Bool)
    (htot : ∀ a b, le a b || le b a)
    (htr : ∀ a b c, le a b = true → le b c = true → le a c = true)
    (l : List α) :
    List.Pairwise (fun a b => le a b = true) (sortBy le l) := by
  have inst1 : IsTotal α (boolRel le) := by
    constructor
    intro a b
    have h := htot a b
    rcases Bool.or_eq_true_iff.1 h with h' | h'
    · exact Or.inl h'
    · exact Or.inr h'
  have inst2 : IsTrans α (boolRel le) := by
    constructor
    intro a b c h1 h2
    exact htr a b c h1 h2
  exact @List.sorted_insertionSort α (boolRel le) _ inst1 inst2 l

/-! ## Dates

Python `datetime.date` values, ISO formatting and day arithmetic
(`(date.today() - lu).days`). -/

/-- A calendar date, as Python's `datetime.date` (valid range year 1..9999). -/
structure Date where
  year : Nat
  month : Nat
  day : Nat
deriving DecidableEq, Repr

/-- Leap year rule of the proleptic Gregorian calendar. -/
def isLeap (y : Nat) : Bool :=
  (y % 4 == 0 && y % 100 != 0) || y % 400 == 0

/-- Length of a month, as `datetime` validates it. -/
def daysInMonth (y m : Nat) : Nat :=
  if m == 2 then (if isLeap y then 29 else 28)
  else if m == 4 || m == 6 || m == 9 || m == 11 then 30
  else 31

/-- Day number of a date (civil-from-days construction, shifted by a
constant 400-year era so the arithmetic stays in `Nat`; only differences
of the results are ever used, as in Python's `(d1 - d2).days`). -/
def Date.toDays (dt : Date) : Nat :=
  let y := if dt.month ≤ 2 then dt.year + 399 else dt.year + 400
  let era := y / 400
  let yoe := y % 400
  let mp := (dt.month + 9) % 12
  let doy := (153 * mp + 2) / 5 + dt.day - 1
  let doe := yoe * 365 + yoe / 4 - yoe / 100 + doy
  era * 146097 + doe

/-- Signed difference in days between two dates, Python `(a - b).days`. -/
def dateDiff (a b : Date) : Int :=
  (a.toDays : Int) - (b.toDays : Int)

/-- Zero-pad a numeral to two digits. -/
def pad2 (n : Nat) : String :=
  if n < 10 then "0" ++ toString n else toString n

/-- Zero-pad a numeral to four digits. -/
def pad4 (n : Nat) : String :=
  if n < 10 then "000" ++ toString n
  else if n < 100 then "00" ++ toString n
  else if n < 1000 then "0" ++ toString n
  else toString n

/-- Python `date.isoformat()` / `str(date)`. -/
def Date.iso (dt : Date) : String :=
  pad4 dt.year ++ "-" ++ pad2 dt.month ++ "-" ++ pad2 dt.day

/-- True when `s` is nonempty and all decimal digits. -/
def isDigitStr (s : String) : Bool :=
  !s.toList.isEmpty && s.toList.all Char.isDigit

/-- Numeric value of a digit string. -/
def natOfDigits (s : String) : Nat :=
  s.toList.foldl (fun a c => a * 10 + (c.toNat - 48)) 0

/-- Python `datetime.strptime(s, "%Y-%m-%d")` (source line 200): `%Y` is
exactly four digits, `%m`/`%d` are one or two digits, and the resulting
calendar date must be valid (year at least `MINYEAR = 1`). -/
def parseDate (s : String) : Option Date :=
  match splitChar '-' s with
  | [ys, ms, ds] =>
    if ys.length == 4 && isDigitStr ys && isDigitStr ms && ms.length ≤ 2
        && isDigitStr ds && ds.length ≤ 2 then
      let y := natOfDigits ys
      let m := natOfDigits ms
      let d := natOfDigits ds
      if 1 ≤ y && 1 ≤ m && m ≤ 12 && 1 ≤ d && d ≤ daysInMonth y m then
        some ⟨y, m, d⟩
      else none
    else none
  | _ => none

/-! ## Frontmatter values and the YAML model -/

/-- A scalar value of a parsed frontmatter mapping: a string, or a calendar
date (YAML resolves bare `YYYY-MM-DD` scalars to date objects, which the
script handles separately from strings at source lines 198-204). -/
inductive FVal where
  | s : String → FVal
  | d : Date → FVal
deriving DecidableEq, Repr

/-- A parsed mapping (Python dict: association list with unique keys). -/
abbrev FMap := List (String × FVal)

/-- Python `m[k]` / `k in m` lookup. -/
def getVal (m : FMap) (k : String) : Option FVal :=
  (m.find? (fun p => p.1 == k)).map (fun p => p.2)

/-- Python `k in m`. -/
def hasKey (m : FMap) (k : String) : Bool :=
  (getVal m k).isSome

/-- Python dict assignment `m[k] = v`: replaces in place, or appends. -/
def insertPair (m : FMap) (k : String) (v : FVal) : FMap :=
  if hasKey m k then m.map (fun p => if p.1 == k then (k, v) else p)
  else m ++ [(k, v)]

/-- Rendering of a value in an f-string (`str()`); `str(date)` is its
ISO form. -/
def pyToStr (v : FVal) : String :=
  match v with
  | .s str => str
  | .d dt => dt.iso

/-- Python `e.get(k, "—")` as rendered into a table cell. -/
def getStrOr (m : FMap) (k dflt : String) : String :=
  match getVal m k with
  | some v => pyToStr v
  | none => dflt

/-- Result of `yaml.safe_load`: a parse error, a non-mapping scalar, or a
mapping. -/
inductive YOut where
  | err : YOut
  | scalar : FVal → YOut
  | map : FMap → YOut
deriving DecidableEq, Repr

/-- True when `v` matches YAML's date resolver pattern
`[0-9]{4}-[0-9]{2}-[0-9]{2}`. -/
def strictDatePat (v : String) : Bool :=
  match splitChar '-' v with
  | [ys, ms, ds] =>
    ys.length == 4 && ms.length == 2 && ds.length == 2
      && isDigitStr ys && isDigitStr ms && isDigitStr ds
  | _ => false

/-- One `key: value` line of the block. -/
def yamlLine (l : String) : Option (String × FVal) :=
  let k := pyTrim (String.mk (l.toList.takeWhile (fun c => !(c == ':'))))
  let v := pyTrim (String.mk ((l.toList.dropWhile (fun c => !(c == ':'))).drop 1))
  if strictDatePat v then (parseDate v).map (fun dt => (k, FVal.d dt))
  else some (k, FVal.s v)

/-- Accumulate the lines of a block into a mapping (later duplicate keys
overwrite in place, as in a dict). -/
def foldPairs (ls : List String) : Option FMap :=
  ls.foldl
    (fun acc l => acc.bind (fun m => (yamlLine l).map (fun p => insertPair m p.1 p.2)))
    (some [])

/-- True when the line contains a colon. -/
def hasColon (l : String) : Bool :=
  l.toList.any (fun c => c == ':')

/-- Modelled from the spec: the source calls the external YAML library
(`yaml.safe_load`, source line 45); the spec reads "structured key/value
content parsed as a generic mapping (equivalent to a common structured-data
serialization: scalars, nested mappings, no custom types required)".  The
model covers flat scalar mappings: each nonblank line is `key: value` with
string values, bare `YYYY-MM-DD` values resolved to dates (an ill-formed
date in that pattern is an error); a colon-free block is a non-mapping
scalar; anything else is a parse error.  Nested mappings and other YAML
forms are outside the model. -/
def simpleYaml (text : String) : YOut :=
  let ls := ((splitChar '\n' text).map pyTrim).filter (fun l => l ≠ "")
  match ls with
  | [] => .scalar (FVal.s "")
  | _ =>
    if ls.all hasColon then
      match foldPairs ls with
      | some m => .map m
      | none => .err
    else if ls.all (fun l => !(hasColon l)) then
      .scalar (FVal.s (String.intercalate " " ls))
    else .err

/-! ## The frontmatter delimiter regex

`re.match(r"^---\s*\n(.*?)\n---", content, re.DOTALL)` (source line 40),
translated with its exact backtracking semantics: after the literal `---`,
the greedy `\s*` prefers to absorb as much whitespace as possible before
committing a `\n`, and the lazy `(.*?)` stops at the first later
occurrence of `"\n---"`. -/

/-- True when the list starts with three hyphens. -/
def startsWith3Dashes : List Char → Bool
  | a :: b :: c :: _ => a == '-' && b == '-' && c == '-'
  | _ => false

/-- Lazy `(.*?)\n---`: the prefix of `cs` before the first occurrence of
`"\n---"`, if one exists. -/
def splitClose : List Char → Option (List Char)
  | [] => none
  | c :: cs =>
    if c == '\n' && startsWith3Dashes cs then some []
    else (splitClose cs).map (fun p => c :: p)

/-- Greedy `\s*\n` followed by the lazy close: consume whitespace as deep
as possible, and at each newline boundary (deepest first) look for the
closing `"\n---"`. -/
def fmScan : List Char → Option (List Char)
  | [] => none
  | c :: cs =>
    if isPyWs c then
      match fmScan cs with
      | some g => some g
      | none => if c == '\n' then splitClose cs else none
    else none

/-- Group 1 of the frontmatter regex match on `content`, if the regex
matches: the anchored `^---`, then the scan. -/
def extractFrontmatter (content : String) : Option String :=
  if startsWith3Dashes content.toList then
    (fmScan (content.toList.drop 3)).map (fun g => String.mk g)
  else none

/-! ## The heading regex

`re.search(r"^##\s+\[.*?\]\s+(.+)$", content, re.MULTILINE)` (source
lines 50-51), again with the engine's backtracking order: `\s+` is greedy
(and may cross newlines), `\[.*?\]` closes at the earliest workable `]` on
the line, and `(.+)$` takes the rest of a line. -/

/-- The trailing `\s+(.+)$` after the first whitespace character was
consumed: keep consuming whitespace greedily; on fallback, `(.+)` starts at
the current character, which must not be a newline, and runs to the end of
its line. -/
def tailCont : List Char → Option (List Char)
  | [] => none
  | c :: cs =>
    if isPyWs c then
      match tailCont cs with
      | some g => some g
      | none =>
        if c == '\n' then none
        else some (c :: cs.takeWhile (fun x => !(x == '\n')))
    else some (c :: cs.takeWhile (fun x => !(x == '\n')))

/-- `\s+(.+)$`: at least one whitespace character, then a nonempty line
remainder. -/
def matchTail : List Char → Option (List Char)
  | [] => none
  | c :: cs => if isPyWs c then tailCont cs else none

/-- `.*?\]\s+(.+)$` within the current line: try each `]` in turn as the
closer (laziness), absorbing failed closers into `.*?`, which cannot cross
a newline. -/
def bracketScan : List Char → Option (List Char)
  | [] => none
  | c :: cs =>
    if c == '\n' then none
    else if c == ']' then
      match matchTail cs with
      | some g => some g
      | none => bracketScan cs
    else bracketScan cs

/-- A whole-pattern attempt at one line start: `##`, one or more
whitespace characters (greedy, then `[` must follow immediately), then the
bracket part. -/
def hashMatch (cs : List Char) : Option (List Char) :=
  match cs with
  | '#' :: '#' :: rest =>
    let n := (rest.takeWhile isPyWs).length
    if n == 0 then none
    else
      match rest.drop n with
      | '[' :: rest2 => bracketScan rest2
      | _ => none
  | _ => none

/-- Scan the text position by position; `^` lets an attempt start only at
the beginning of a line, and the leftmost successful attempt wins. -/
def headingSearchAux : Bool → List Char → Option (List Char)
  | _, [] => none
  | atStart, c :: cs =>
    if atStart then
      match hashMatch (c :: cs) with
      | some g => some g
      | none => headingSearchAux (c == '\n') cs
    else headingSearchAux (c == '\n') cs

/-- `heading_match.group(1).strip()` for the first heading match in
`content`, if any (source lines 50-54). -/
def headingName (content : String) : Option String :=
  (headingSearchAux true content.toList).map (fun g => pyTrim (String.mk g))

/-! ## Filename-derived names -/

/-- `filepath.stem` of a base name, following `pathlib`: strip the part
from the last dot on, provided that dot is neither the leading character
nor the final one. -/
def stemOf (name : String) : String :=
  let cs := name.toList
  match cs.reverse.findIdx? (fun c => c == '.') with
  | some j =>
    let i := cs.length - 1 - j
    if 0 < i ∧ i < cs.length - 1 then String.mk (cs.take i) else name
  | none => name

/-- `re.sub(r"^[A-Z]+\.[A-Z]+\.\d+-?", "", slug)` (source line 59): strip
a leading identifier-shaped run (uppercase letters, dot, uppercase
letters, dot, digits, optional hyphen) if present. -/
def stripLeadingId (s : String) : String :=
  let cs := s.toList
  let u1 := cs.takeWhile isUpperAscii
  if u1.length == 0 then s
  else
    match cs.drop u1.length with
    | '.' :: r1 =>
      let u2 := r1.takeWhile isUpperAscii
      if u2.length == 0 then s
      else
        match r1.drop u2.length with
        | '.' :: r2 =>
          let dg := r2.takeWhile Char.isDigit
          if dg.length == 0 then s
          else
            match r2.drop dg.length with
            | '-' :: r3 => String.mk r3
            | r3 => String.mk r3
        | _ => s
    | _ => s

/-- Python `str.title()` on ASCII text: uppercase a letter that does not
follow a letter, lowercase one that does. -/
def titleCase (s : String) : String :=
  let step := fun (acc : List Char × Bool) (c : Char) =>
    if c.isAlpha then
      (acc.1 ++ [if acc.2 then c.toLower else c.toUpper], true)
    else (acc.1 ++ [c], false)
  String.mk (s.toList.foldl step ([], false)).1

/-! ## The frontmatter parser -/

/-- One markdown file of the tree: its full path (`str(filepath)`), base
name (`filepath.name`) and content (`none` models a `read_text` failure,
source lines 34-37). -/
structure MdFile where
  path : String
  name : String
  content : Option String
deriving DecidableEq, Repr

/-- `parse_frontmatter` (source lines 31-65): extract the delimited block,
parse it, require a mapping with an `id` key, attach `_filepath`, and
derive a `name` from the heading or the filename slug when absent.  The
slug-derived name is set only when the stripped slug is nonempty
(`if slug:`, line 60). -/
def parse_frontmatter (f : MdFile) : Option FMap :=
  match f.content with
  | none => none
  | some content =>
    match extractFrontmatter content with
    | none => none
    | some block =>
      match simpleYaml block with
      | .map data =>
        if hasKey data "id" then
          let d1 := insertPair data "_filepath" (FVal.s f.path)
          let d2 :=
            if hasKey d1 "name" then d1
            else
              match headingName content with
              | some nm => insertPair d1 "name" (FVal.s nm)
              | none =>
                let slug := stripLeadingId (stemOf f.name)
                if slug ≠ "" then
                  insertPair d1 "name"
                    (FVal.s (titleCase (replaceChar '-' ' ' slug)))
                else d1
          some d2
        else none
      | _ => none

/-! ## Entity classification -/

/-- `classify_kind` (source lines 68-73): the second dot-segment of the
identifier when at least three segments exist, else `"UNKNOWN"`. -/
def classify_kind (entity_id : String) : String :=
  match splitChar '.' entity_id with
  | _ :: k :: _ :: _ => k
  | _ => "UNKNOWN"

/-- `KIND_LABELS` (source lines 76-86). -/
def KIND_LABELS : List (String × String) :=
  [("D", "Distinctions"), ("R", "Roles"), ("M", "Methods"),
   ("WP", "Work Products"), ("FM", "Failure Modes"),
   ("SOTA", "SoTA Annotations"), ("MAP", "Maps"),
   ("CHR", "Characteristics"), ("OA", "Objects of Attention")]

/-- `KIND_LABELS.get(kind, kind)`. -/
def kindLabel (k : String) : String :=
  match KIND_LABELS.find? (fun p => p.1 == k) with
  | some p => p.2
  | none => k

/-! ## Record collection (source lines 94-107 and 230-237)

The walk is over `sorted(pack_dir.rglob("*.md"))`; `Path` ordering is the
path-string ordering. -/

/-- The id of a record as a string.  The source reads `e["id"]` raw; its
annotations (`classify_kind(entity_id: str)`) assume a string, and a
non-string id crashes the script (`.split` on a date, mixed-type sort
keys), so the embedding renders non-string ids via `str()` and gives a
missing id the empty string. -/
def recId (e : FMap) : String :=
  match getVal e "id" with
  | some v => pyToStr v
  | none => ""

/-- `sorted(pack_dir.rglob("*.md"))`: ascending by path string. -/
def sortFiles (files : List MdFile) : List MdFile :=
  sortBy (fun a b => strLeB a.path b.path) files

/-- True when the base name starts with an underscore. -/
def underscoreName (name : String) : Bool :=
  match name.toList with
  | '_' :: _ => true
  | _ => false

/-- True when the walk skips the file: underscore-prefixed base name, or
one of the two fixed non-entity files (source lines 96-100, 231-234). -/
def skipFile (f : MdFile) : Bool :=
  underscoreName f.name || f.name == "00-pack-manifest.md" || f.name == "ontology.md"

/-- The warning text of source line 107. -/
def warnLine (eid fname : String) : String :=
  s!"Missing `summary`: {eid} ({fname})"

/-- The collection loop of `generate_map` (source lines 95-107): walk the
files in order, skip non-entity files, keep each parsed record, and append
a warning for each kept record that lacks a `summary` key. -/
def collectLoop : List MdFile → List FMap × List String
  | [] => ([], [])
  | f :: fs =>
    if skipFile f then collectLoop fs
    else
      match parse_frontmatter f with
      | some fm =>
        let rest := collectLoop fs
        (fm :: rest.1,
         if hasKey fm "summary" then rest.2
         else warnLine (recId fm) f.name :: rest.2)
      | none => collectLoop fs

/-- The `entities` list of `generate_map`. -/
def mapEntities (files : List MdFile) : List FMap :=
  (collectLoop (sortFiles files)).1

/-- The `warnings` list of `generate_map`. -/
def warningsOf (files : List MdFile) : List String :=
  (collectLoop (sortFiles files)).2

/-! ## Grouping and rendering of the map (source lines 109-224) -/

/-- `by_kind[k]`: the records of kind `k` in collection order. -/
def groupOf (entities : List FMap) (k : String) : List FMap :=
  entities.filter (fun e => classify_kind (recId e) == k)

/-- The key set of `by_kind` (each kind that occurs; all later uses sort
it, so only membership matters). -/
def kindsOf (entities : List FMap) : List String :=
  (entities.map (fun e => classify_kind (recId e))).dedup

/-- `sorted(by_kind.keys())`. -/
def sortedKinds (entities : List FMap) : List String :=
  sortBy strLeB (kindsOf entities)

/-- The statistics rows (source lines 139-141): kind and count, one row
per kind present, kinds ascending. -/
def statsRows (entities : List FMap) : List (String × Nat) :=
  (sortedKinds entities).map (fun k => (k, (groupOf entities k).length))

/-- The fixed preferred rendering order of known kinds (source line 147). -/
def fixedKindOrder : List String := ["D", "R", "M", "WP", "FM", "SOTA", "MAP"]

/-- `base_kinds` (source line 166). -/
def baseKindsList : List String :=
  ["D", "R", "M", "WP", "FM", "SOTA", "MAP", "CHR", "OA"]

/-- The rows of one category table: its records sorted by id ascending
(source lines 156, 177). -/
def sectionRowsOf (entities : List FMap) (k : String) : List FMap :=
  sortBy (fun a b => strLeB (recId a) (recId b)) (groupOf entities k)

/-- The known-category tables (source lines 147-163): one per kind of the
fixed order that is present, keyed by kind. -/
def fixedSections (entities : List FMap) : List (String × List FMap) :=
  (fixedKindOrder.filter (fun k => !(groupOf entities k).isEmpty)).map
    (fun k => (k, sectionRowsOf entities k))

/-- `sorted(extended.keys())` (source lines 165-171): the kinds present
but outside `base_kinds`, ascending. -/
def extendedKinds (entities : List FMap) : List String :=
  sortBy strLeB ((kindsOf entities).filter (fun k => !(baseKindsList.contains k)))

/-- The domain-specific subsections (source lines 165-183), keyed by
kind. -/
def extendedSections (entities : List FMap) : List (String × List FMap) :=
  (extendedKinds entities).map (fun k => (k, sectionRowsOf entities k))

/-- Every rendered category table of one run, fixed ones first. -/
def allSections (entities : List FMap) : List (String × List FMap) :=
  fixedSections entities ++ extendedSections entities

/-- An entry of the staleness table for one record, if it produces one
(source lines 195-209): the `last_updated` value must be present and
truthy, be a string parsing as a `%Y-%m-%d` date or already a date value,
and lie more than 90 days before the run date.  (A falsy string `""` also
fails `strptime`; a falsy value of any other type is skipped just as a
truthy one is passed over by the `isinstance` chain, so truthiness never
changes the outcome and the branches below are keyed on the value's
type.) -/
def staleEntry (today : Date) (e : FMap) : Option (String × Int) :=
  match getVal e "last_updated" with
  | some (FVal.s str) =>
    match parseDate str with
    | some lu =>
      let days := dateDiff today lu
      if days > 90 then some (recId e, days) else none
    | none => none
  | some (FVal.d lu) =>
    let days := dateDiff today lu
    if days > 90 then some (recId e, days) else none
  | none => none

/-- The `stale` list (collection order). -/
def staleList (today : Date) (entities : List FMap) : List (String × Int) :=
  entities.filterMap (staleEntry today)

/-- `sorted(stale, key=lambda x: -x[1])` (source line 216): descending by
day count. -/
def staleSorted (today : Date) (entities : List FMap) : List (String × Int) :=
  sortBy (fun a b => decide (b.2 ≤ a.2)) (staleList today entities)

/-- One table row (source lines 156-161, 177-182). -/
def rowLine (e : FMap) : String :=
  let eid := recId e
  let name := getStrOr e "name" "—"
  let summary := getStrOr e "summary" "—"
  let status := getStrOr e "status" "—"
  s!"| {eid} | {name} | {summary} | {status} |"

/-- One statistics row (source line 141). -/
def statsLine (k : String) (n : Nat) : String :=
  let label := kindLabel k
  s!"| {label} ({k}) | {n} |"

/-- The fixed header lines of the map (source lines 117-137). -/
def mapHeader (domain : String) (today : Date) : List String :=
  let t := today.iso
  ["---", s!"id: {domain}.MAP.001", "name: Pack Navigation Map",
   "scope: full-pack", s!"created: {t}", s!"last_updated: {t}",
   "generated: true", "---", "",
   s!"# [{domain}.MAP.001] Pack Navigation Map", "",
   s!"> Auto-generated from frontmatter on {t}. Do not edit manually.", "",
   "---", "", "## Statistics", "", "| Kind | Count |", "|------|-------|"]

/-- The lines of one known-category table (source lines 147-163). -/
def fixedSectionLines (sec : String × List FMap) : List String :=
  let label := kindLabel sec.1
  [s!"## {label}", "", "| ID | Name | Summary | Status |",
   "|----|------|---------|--------|"] ++ sec.2.map rowLine ++ [""]

/-- The lines of one domain-specific subsection (source lines 171-183). -/
def extendedSectionLines (sec : String × List FMap) : List String :=
  let label := kindLabel sec.1
  [s!"### {label}", "", "| ID | Name | Summary | Status |",
   "|----|------|---------|--------|"] ++ sec.2.map rowLine ++ [""]

/-- One staleness row (source line 217). -/
def staleRowLine (p : String × Int) : String :=
  let eid := p.1
  let days := p.2
  s!"| {eid} | {days} |"

/-- `generate_map` (source lines 89-224) as the list of output lines,
with the run date injected. -/
def generateMapLines (files : List MdFile) (domain : String) (today : Date) :
    List String :=
  let entities := mapEntities files
  let warnings := warningsOf files
  let total := entities.length
  mapHeader domain today
    ++ (statsRows entities).map (fun r => statsLine r.1 r.2)
    ++ [s!"| **Total** | **{total}** |", ""]
    ++ (fixedSections entities).flatMap fixedSectionLines
    ++ (if (extendedSections entities).isEmpty then []
        else ["## Domain-Specific Entities", ""]
          ++ (extendedSections entities).flatMap extendedSectionLines)
    ++ (if warnings.isEmpty then []
        else ["## Warnings", ""] ++ warnings.map (fun w => s!"- {w}") ++ [""])
    ++ (if (staleSorted today entities).isEmpty then []
        else ["## Staleness Warnings (>90 days since update)", "",
              "| ID | Days Since Update |", "|----|-------------------|"]
          ++ (staleSorted today entities).map staleRowLine ++ [""])
    ++ ["---", "", s!"*Generated by `scripts/generate-map.py` on {today.iso}*"]

/-- `generate_map`'s returned string: `"\n".join(lines)`. -/
def generate_map (files : List MdFile) (domain : String) (today : Date) :
    String :=
  String.intercalate "\n" (generateMapLines files domain today)

/-! ## Entity index (source lines 227-254) -/

/-- The collection loop of `generate_entity_index` (source lines 230-237):
textually the same walk and filters as `generate_map`'s, without the
warning pass. -/
def indexLoop : List MdFile → List FMap
  | [] => []
  | f :: fs =>
    if skipFile f then indexLoop fs
    else
      match parse_frontmatter f with
      | some fm => fm :: indexLoop fs
      | none => indexLoop fs

/-- The `entities` list of `generate_entity_index`. -/
def indexEntities (files : List MdFile) : List FMap :=
  indexLoop (sortFiles files)

/-- The records of the entity index table in rendered order:
`sorted(entities, key=lambda x: x["id"])` (source line 246). -/
def indexSorted (files : List MdFile) : List FMap :=
  sortBy (fun a b => strLeB (recId a) (recId b)) (indexEntities files)

/-- One entity-index row (source lines 246-252). -/
def indexRowLine (e : FMap) : String :=
  let eid := recId e
  let name := getStrOr e "name" "—"
  let kind := classify_kind eid
  let summary := getStrOr e "summary" "—"
  let status := getStrOr e "status" "—"
  s!"| {eid} | {name} | {kind} | {summary} | {status} |"

/-- `generate_entity_index` (source lines 227-254) as its list of lines. -/
def generateEntityIndexLines (files : List MdFile) : List String :=
  ["## Entity Index", "", "| ID | Name | Kind | Summary | Status |",
   "|----|------|------|---------|--------|"]
    ++ (indexSorted files).map indexRowLine

/-- `generate_entity_index`'s returned string. -/
def generate_entity_index (files : List MdFile) : String :=
  String.intercalate "\n" (generateEntityIndexLines files)

/-! ## Domain detection (source lines 257-284) -/

/-- A pack directory as the script sees it: the recursive `*.md` listing,
the optional manifest file at `<dir>/00-pack-manifest.md`, and the
directory's own name. -/
structure PackDir where
  files : List MdFile
  manifest : Option MdFile
  dirName : String
deriving Repr

/-- The body-text regex of source line 269,
`Pack ID[*]*:\s*`?([A-Z]{2,4})`?`, attempted at one position. -/
def packIdAt (cs : List Char) : Option (List Char) :=
  match cs with
  | 'P' :: 'a' :: 'c' :: 'k' :: ' ' :: 'I' :: 'D' :: rest =>
    match rest.dropWhile (fun c => c == '*') with
    | ':' :: r2 =>
      let r3 := r2.dropWhile isPyWs
      let r4 := match r3 with
        | '`' :: t => t
        | t => t
      let us := (r4.takeWhile isUpperAscii).take 4
      if us.length ≥ 2 then some us else none
    | _ => none
  | _ => none

/-- `re.search` for the Pack ID pattern: first matching position wins. -/
def searchPackIdAux : List Char → Option (List Char)
  | [] => none
  | c :: cs =>
    match packIdAt (c :: cs) with
    | some u => some u
    | none => searchPackIdAux cs

/-- The matched pack code in `content`, if any. -/
def searchPackId (content : String) : Option String :=
  (searchPackIdAux content.toList).map (fun u => String.mk u)

/-- The fallback scan of source lines 275-282: walk the sorted tree,
skipping underscore-prefixed files and the manifest name; the first valid
record whose id splits into at least two dot-segments yields its first
segment. -/
def scanEntityDomain : List MdFile → Option String
  | [] => none
  | f :: fs =>
    if underscoreName f.name || f.name == "00-pack-manifest.md" then
      scanEntityDomain fs
    else
      match parse_frontmatter f with
      | some fm =>
        match splitChar '.' (recId fm) with
        | a :: _ :: _ => some a
        | _ => scanEntityDomain fs
      | none => scanEntityDomain fs

/-- `pack_dir.name.upper()[:2]` (source line 284). -/
def upperTwo (s : String) : String :=
  String.mk ((s.toList.map Char.toUpper).take 2)

/-- `detect_domain` (source lines 257-284). -/
def detect_domain (p : PackDir) : String :=
  let fromManifest :=
    match p.manifest with
    | some mf =>
      match parse_frontmatter mf with
      | some fm =>
        match getVal fm "pack_id" with
        | some v => some (pyToStr v)
        | none =>
          match mf.content with
          | some c => searchPackId c
          | none => none
      | none =>
        match mf.content with
        | some c => searchPackId c
        | none => none
    | none => none
  match fromManifest with
  | some dom => dom
  | none =>
    match scanEntityDomain (sortFiles p.files) with
    | some dom => dom
    | none => upperTwo p.dirName

/-! ## Orchestrator (source lines 287-315) -/

/-- The observable outcome of one run: exit code, stdout payloads in
print order, and the map file written (path and content), if any. -/
structure RunResult where
  exitCode : Nat
  stdout : List String
  written : Option (String × String)
deriving Repr

/-- `main` (source lines 287-315): `argv` is `sys.argv` (program name
first); `resolve` abstracts `Path(...).resolve()`; `lookupDir` returns the
directory's pack listing when the resolved path `is_dir()`, and `none`
otherwise. -/
def mainRun (argv : List String) (resolve : String → String)
    (lookupDir : String → Option PackDir) (today : Date) : RunResult :=
  match argv with
  | _ :: arg1 :: _ =>
    let packPath := resolve arg1
    match lookupDir packPath with
    | none => ⟨1, [s!"Error: {packPath} is not a directory"], none⟩
    | some pd =>
      let updateManifest := argv.contains "--manifest"
      let domain := detect_domain pd
      let mapContent := generate_map pd.files domain today
      let mapFile := s!"{packPath}/07-map/{domain}.MAP.001.md"
      let entityIndex := generate_entity_index pd.files
      ⟨0,
        [s!"Domain: {domain}", s!"Pack directory: {packPath}",
         s!"MAP written to: {mapFile}"]
          ++ (if updateManifest then ["\nEntity Index (for manifest):\n"] else [])
          ++ [entityIndex],
        some (mapFile, mapContent)⟩
  | _ => ⟨1, ["Usage: python generate-map.py <pack-directory> [--manifest]"], none⟩

/-! ## General lemmas about the grouping -/

theorem mem_groupOf {entities : List FMap} {e : FMap} {k : String} :
    e ∈ groupOf entities k ↔ e ∈ entities ∧ classify_kind (recId e) = k := by
  simp [groupOf, List.mem_filter]

theorem mem_kindsOf {entities : List FMap} {k : String} :
    k ∈ kindsOf entities ↔ ∃ e ∈ entities, classify_kind (recId e) = k := by
  simp [kindsOf, List.mem_dedup, List.mem_map]

theorem mem_sectionRowsOf {entities : List FMap} {e : FMap} {k : String} :
    e ∈ sectionRowsOf entities k ↔
      e ∈ entities ∧ classify_kind (recId e) = k := by
  rw [sectionRowsOf, mem_sortBy, mem_groupOf]

theorem mem_sortedKinds {entities : List FMap} {k : String} :
    k ∈ sortedKinds entities ↔ k ∈ kindsOf entities := by
  rw [sortedKinds, mem_sortBy]

theorem classify_of_short {i : String} (h : (splitChar '.' i).length < 3) :
    classify_kind i = "UNKNOWN" := by
  unfold classify_kind
  match hp : splitChar '.' i with
  | [] => rfl
  | [a] => rfl
  | [a, b] => rfl
  | a :: b :: c :: rest => rw [hp] at h; simp at h; omega

/-- Claim C8: `classify_kind` is a pure function returning the second
dot-segment of the identifier when at least three segments exist and the
sentinel `"UNKNOWN"` otherwise; `"DP.WP.014"` classifies to `"WP"`, which
the statistics table labels "Work Products". -/
theorem c8_classify_kind_contract (i : String) :
    (3 ≤ (splitChar '.' i).length →
      (splitChar '.' i).get? 1 = some (classify_kind i)) ∧
    ((splitChar '.' i).length < 3 → classify_kind i = "UNKNOWN") ∧
    classify_kind "DP.WP.014" = "WP" ∧
    kindLabel "WP" = "Work Products" ∧
    statsLine "WP" 1 = "| Work Products (WP) | 1 |" := by
  refine ⟨?_, fun h => classify_of_short h, by decide, by decide, by decide⟩
  intro h
  unfold classify_kind
  match hp : splitChar '.' i with
  | [] => rw [hp] at h; simp at h
  | [a] => rw [hp] at h; simp at h
  | [a, b] => rw [hp] at h; simp at h
  | a :: b :: c :: rest => rfl

/-- Witness for C8 at the concrete identifiers `"DP.WP.014"` and `"A"`. -/
theorem c8_classify_kind_contract_witness :
    (splitChar '.' "DP.WP.014").get? 1 = some (classify_kind "DP.WP.014") ∧
    classify_kind "A" = "UNKNOWN" :=
  ⟨(c8_classify_kind_contract "DP.WP.014").1 (by decide),
   (c8_classify_kind_contract "A").2.1 (by decide)⟩

/-- Claim C10: a collected record whose id has fewer than three
dot-segments is classified `"UNKNOWN"`, counted in the statistics rows,
and rendered under the domain-specific sections in a subsection keyed
`"UNKNOWN"`, whose label is the raw code (not in `KIND_LABELS`), since
`"UNKNOWN"` is not in the base kind set. -/
theorem c10_short_id_rendering (entities : List FMap) (e : FMap)
    (he : e ∈ entities) (hlen : (splitChar '.' (recId e)).length < 3) :
    classify_kind (recId e) = "UNKNOWN" ∧
    ("UNKNOWN", (groupOf entities "UNKNOWN").length) ∈ statsRows entities ∧
    e ∈ groupOf entities "UNKNOWN" ∧
    ("UNKNOWN", sectionRowsOf entities "UNKNOWN") ∈ extendedSections entities ∧
    e ∈ sectionRowsOf entities "UNKNOWN" ∧
    kindLabel "UNKNOWN" = "UNKNOWN" ∧
    "UNKNOWN" ∉ baseKindsList := by
  have hk : classify_kind (recId e) = "UNKNOWN" := classify_of_short hlen
  have hkind : "UNKNOWN" ∈ kindsOf entities := mem_kindsOf.2 ⟨e, he, hk⟩
  refine ⟨hk, ?_, mem_groupOf.2 ⟨he, hk⟩, ?_, mem_sectionRowsOf.2 ⟨he, hk⟩,
    by decide, by decide⟩
  · exact List.mem_map.2 ⟨"UNKNOWN", mem_sortedKinds.2 hkind, rfl⟩
  · refine List.mem_map.2 ⟨"UNKNOWN", ?_, rfl⟩
    rw [extendedKinds, mem_sortBy, List.mem_filter]
    exact ⟨hkind, by decide⟩

/-- Witness for C10 at a one-record run with id `"SOLO"`. -/
theorem c10_short_id_rendering_witness :
    classify_kind (recId [("id", FVal.s "SOLO")]) = "UNKNOWN" ∧
    ("UNKNOWN", sectionRowsOf [[("id", FVal.s "SOLO")]] "UNKNOWN") ∈
      extendedSections [[("id", FVal.s "SOLO")]] ∧
    [("id", FVal.s "SOLO")] ∈ sectionRowsOf [[("id", FVal.s "SOLO")]] "UNKNOWN" := by
  have h := c10_short_id_rendering [[("id", FVal.s "SOLO")]]
    [("id", FVal.s "SOLO")] (by decide) (by decide)
  exact ⟨h.1, h.2.2.2.1, h.2.2.2.2.1⟩

/-- Claim C9: the program exits with code 1 and a diagnostic when the
pack-directory argument is missing or the path is not a directory, and
with code 0 on success (the success branch never inspects how many records
were found). -/
theorem c9_exit_codes (argv : List String) (resolve : String → String)
    (lookupDir : String → Option PackDir) (today : Date) :
    (argv.length < 2 →
      mainRun argv resolve lookupDir today =
        ⟨1, ["Usage: python generate-map.py <pack-directory> [--manifest]"],
          none⟩) ∧
    (∀ a0 p rest, argv = a0 :: p :: rest → lookupDir (resolve p) = none →
      mainRun argv resolve lookupDir today =
        ⟨1, ["Error: " ++ resolve p ++ " is not a directory"], none⟩) ∧
    (∀ a0 p rest pd, argv = a0 :: p :: rest → lookupDir (resolve p) = some pd →
      (mainRun argv resolve lookupDir today).exitCode = 0) := by
  refine ⟨?_, ?_, ?_⟩
  · intro h
    match argv with
    | [] => rfl
    | [a] => rfl
    | a :: b :: rest => simp at h; omega
  · intro a0 p rest habv hdir
    subst habv
    simp only [mainRun, hdir]
    rfl
  · intro a0 p rest pd habv hdir
    subst habv
    simp [mainRun, hdir]

/-- Witness for C9: missing argument, non-directory path, and a successful
run over a directory with zero records. -/
theorem c9_exit_codes_witness :
    mainRun ["prog"] id (fun _ => none) ⟨2025, 10, 12⟩ =
      ⟨1, ["Usage: python generate-map.py <pack-directory> [--manifest]"],
        none⟩ ∧
    mainRun ["prog", "nodir"] id (fun _ => none) ⟨2025, 10, 12⟩ =
      ⟨1, ["Error: " ++ "nodir" ++ " is not a directory"], none⟩ ∧
    (mainRun ["prog", "d"] id (fun _ => some ⟨[], none, "d"⟩)
      ⟨2025, 10, 12⟩).exitCode = 0 :=
  ⟨(c9_exit_codes ["prog"] id (fun _ => none) ⟨2025, 10, 12⟩).1 (by decide),
   (c9_exit_codes ["prog", "nodir"] id (fun _ => none) ⟨2025, 10, 12⟩).2.1
     "prog" "nodir" [] rfl rfl,
   (c9_exit_codes ["prog", "d"] id (fun _ => some ⟨[], none, "d"⟩)
     ⟨2025, 10, 12⟩).2.2 "prog" "d" [] ⟨[], none, "d"⟩ rfl rfl⟩

/-! ## Characterizing the collection loops -/

/-- The kept files of the walk paired with their parsed records, the
functional characterization of the collection loops. -/
def collectedPairs (files : List MdFile) : List (MdFile × FMap) :=
  (sortFiles files).filterMap
    (fun f => if skipFile f then none
              else (parse_frontmatter f).map (fun fm => (f, fm)))

theorem collectLoop_fst (fl : List MdFile) :
    (collectLoop fl).1 =
      fl.filterMap (fun f => if skipFile f then none else parse_frontmatter f) := by
  induction fl with
  | nil => rfl
  | cons f fs ih =>
    simp only [collectLoop, List.filterMap_cons]
    by_cases hs : skipFile f
    · simp [hs, ih]
    · cases hp : parse_frontmatter f with
      | none => simp [hs, hp, ih]
      | some fm => simp [hs, hp, ih, collectLoop]

theorem indexLoop_eq (fl : List MdFile) :
    indexLoop fl =
      fl.filterMap (fun f => if skipFile f then none else parse_frontmatter f) := by
  induction fl with
  | nil => rfl
  | cons f fs ih =>
    simp only [indexLoop, List.filterMap_cons]
    by_cases hs : skipFile f
    · simp [hs, ih]
    · cases hp : parse_frontmatter f with
      | none => simp [hs, hp, ih]
      | some fm => simp [hs, hp, ih]

theorem collectLoop_pairs (fl : List MdFile) :
    (collectLoop fl).1 =
      (fl.filterMap (fun f => if skipFile f then none
          else (parse_frontmatter f).map (fun fm => (f, fm)))).map
        (fun x => x.2) ∧
    (collectLoop fl).2 =
      ((fl.filterMap (fun f => if skipFile f then none
          else (parse_frontmatter f).map (fun fm => (f, fm)))).filter
        (fun x => !(hasKey x.2 "summary"))).map
        (fun x => warnLine (recId x.2) x.1.name) := by
  induction fl with
  | nil => exact ⟨rfl, rfl⟩
  | cons f fs ih =>
    simp only [collectLoop, List.filterMap_cons]
    by_cases hs : skipFile f
    · simpa [hs] using ih
    · cases hp : parse_frontmatter f with
      | none => simpa [hs, hp] using ih
      | some fm =>
        refine ⟨by simp [hs, hp, collectLoop, ih.1], ?_⟩
        by_cases hsum : hasKey fm "summary" <;>
          simp [hs, hp, collectLoop, ih.2, hsum, List.filter_cons]

theorem mapEntities_eq_pairs (files : List MdFile) :
    mapEntities files = (collectedPairs files).map (fun x => x.2) :=
  (collectLoop_pairs (sortFiles files)).1

theorem warningsOf_eq_pairs (files : List MdFile) :
    warningsOf files =
      ((collectedPairs files).filter (fun x => !(hasKey x.2 "summary"))).map
        (fun x => warnLine (recId x.2) x.1.name) :=
  (collectLoop_pairs (sortFiles files)).2

/-- Claim C5: the two collection passes observe the same
inclusion/exclusion rules, so the record list behind the Navigation Map
equals the one behind the Entity Index; the index table covers all
collected records, sorted by identifier ascending. -/
theorem c5_index_matches_map (files : List MdFile) :
    indexEntities files = mapEntities files ∧
    (indexSorted files).Perm (mapEntities files) ∧
    (∀ e, e ∈ indexSorted files ↔ e ∈ mapEntities files) ∧
    List.Pairwise (fun a b => strLeB (recId a) (recId b) = true)
      (indexSorted files) ∧
    generateEntityIndexLines files =
      ["## Entity Index", "", "| ID | Name | Kind | Summary | Status |",
       "|----|------|------|---------|--------|"]
        ++ (indexSorted files).map indexRowLine := by
  have h1 : indexEntities files = mapEntities files := by
    rw [indexEntities, indexLoop_eq, mapEntities, collectLoop_fst]
  refine ⟨h1, ?_, ?_, ?_, rfl⟩
  · rw [← h1]
    exact sortBy_perm _ _
  · intro e
    rw [indexSorted, mem_sortBy, h1]
  · exact sortBy_sorted (fun a b => strLeB (recId a) (recId b))
      (fun a b => strLeB_total (recId a) (recId b))
      (fun a b c => strLeB_trans (recId a) (recId b) (recId c)) _

/-- Claim C6: each collected record lacking a `summary` key contributes
exactly one warning (naming its id and file name) to the warnings list, in
collection order, and every collected record — warned or not — still
appears in the entity list, in its kind's group, and in the statistics
row of its kind. -/
theorem c6_warnings_exact (files : List MdFile) :
    warningsOf files =
      ((collectedPairs files).filter (fun x => !(hasKey x.2 "summary"))).map
        (fun x => warnLine (recId x.2) x.1.name) ∧
    mapEntities files = (collectedPairs files).map (fun x => x.2) ∧
    (∀ x, x ∈ collectedPairs files → hasKey x.2 "summary" = false →
      warnLine (recId x.2) x.1.name ∈ warningsOf files) ∧
    (∀ x, x ∈ collectedPairs files →
      x.2 ∈ mapEntities files ∧
      x.2 ∈ groupOf (mapEntities files) (classify_kind (recId x.2)) ∧
      (classify_kind (recId x.2),
        (groupOf (mapEntities files) (classify_kind (recId x.2))).length)
          ∈ statsRows (mapEntities files)) := by
  refine ⟨warningsOf_eq_pairs files, mapEntities_eq_pairs files, ?_, ?_⟩
  · intro x hx hsum
    rw [warningsOf_eq_pairs]
    exact List.mem_map.2 ⟨x, List.mem_filter.2 ⟨hx, by simp [hsum]⟩, rfl⟩
  · intro x hx
    have hmem : x.2 ∈ mapEntities files := by
      rw [mapEntities_eq_pairs]
      exact List.mem_map.2 ⟨x, hx, rfl⟩
    refine ⟨hmem, mem_groupOf.2 ⟨hmem, rfl⟩, ?_⟩
    exact List.mem_map.2
      ⟨classify_kind (recId x.2),
       mem_sortedKinds.2 (mem_kindsOf.2 ⟨x.2, hmem, rfl⟩), rfl⟩

/-- Witness for C6 at a one-file run whose record has no `summary`. -/
theorem c6_warnings_exact_witness :
    warnLine "DP.WP.014" "DP.WP.014-x.md" ∈
      warningsOf [⟨"02/DP.WP.014-x.md", "DP.WP.014-x.md",
        some "---\nid: DP.WP.014\nname: W\n---"⟩] ∧
    [("id", FVal.s "DP.WP.014"), ("name", FVal.s "W"),
      ("_filepath", FVal.s "02/DP.WP.014-x.md")] ∈
      mapEntities [⟨"02/DP.WP.014-x.md", "DP.WP.014-x.md",
        some "---\nid: DP.WP.014\nname: W\n---"⟩] := by
  have h := c6_warnings_exact [⟨"02/DP.WP.014-x.md", "DP.WP.014-x.md",
    some "---\nid: DP.WP.014\nname: W\n---"⟩]
  refine ⟨?_, ?_⟩
  · have hw := h.2.2.1
      (⟨"02/DP.WP.014-x.md", "DP.WP.014-x.md",
        some "---\nid: DP.WP.014\nname: W\n---"⟩,
       [("id", FVal.s "DP.WP.014"), ("name", FVal.s "W"),
        ("_filepath", FVal.s "02/DP.WP.014-x.md")])
      (by decide) (by decide)
    simpa using hw
  · exact (h.2.2.2
      (⟨"02/DP.WP.014-x.md", "DP.WP.014-x.md",
        some "---\nid: DP.WP.014\nname: W\n---"⟩,
       [("id", FVal.s "DP.WP.014"), ("name", FVal.s "W"),
        ("_filepath", FVal.s "02/DP.WP.014-x.md")])
      (by decide)).1

/-- Claim C4: a record enters the staleness table exactly when its
`last_updated` value is a string parsing as a valid ISO date (or already a
date value) lying more than 90 days before the run date; the table is the
collected entries sorted by descending day count; a record exactly 90 days
old, or with an unparseable or absent `last_updated`, contributes
nothing. -/
theorem c4_staleness (today : Date) (entities : List FMap) :
    (staleSorted today entities).Perm (staleList today entities) ∧
    List.Pairwise (fun a b => b.2 ≤ a.2) (staleSorted today entities) ∧
    (∀ e, e ∈ entities → ∀ p, staleEntry today e = some p →
      p ∈ staleSorted today entities) ∧
    (∀ p, p ∈ staleSorted today entities →
      ∃ e ∈ entities, staleEntry today e = some p) ∧
    (∀ e lu dt, getVal e "last_updated" = some (FVal.s lu) →
      parseDate lu = some dt →
      staleEntry today e =
        (if dateDiff today dt > 90 then some (recId e, dateDiff today dt)
         else none)) ∧
    (∀ e dt, getVal e "last_updated" = some (FVal.d dt) →
      staleEntry today e =
        (if dateDiff today dt > 90 then some (recId e, dateDiff today dt)
         else none)) ∧
    (∀ e lu, getVal e "last_updated" = some (FVal.s lu) → parseDate lu = none →
      staleEntry today e = none) ∧
    (∀ e, getVal e "last_updated" = none → staleEntry today e = none) := by
  refine ⟨sortBy_perm _ _, ?_, ?_, ?_, ?_, ?_, ?_, ?_⟩
  · have hs := sortBy_sorted (fun a b : String × Int => decide (b.2 ≤ a.2))
      (fun a b => by rcases Int.le_total b.2 a.2 with h | h <;> simp [h])
      (fun a b c h1 h2 => by
        simp only [decide_eq_true_eq] at h1 h2 ⊢
        exact le_trans h2 h1)
      (staleList today entities)
    exact hs.imp (fun h => of_decide_eq_true h)
  · intro e he p hp
    rw [staleSorted, mem_sortBy]
    exact List.mem_filterMap.2 ⟨e, he, hp⟩
  · intro p hp
    rw [staleSorted, mem_sortBy] at hp
    exact List.mem_filterMap.1 hp
  · intro e lu dt h1 h2
    simp [staleEntry, h1, h2]
  · intro e dt h1
    simp [staleEntry, h1]
  · intro e lu h1 h2
    simp [staleEntry, h1, h2]
  · intro e h1
    simp [staleEntry, h1]

/-- Witness for C4: a 646-day-old record enters the table; records exactly
90 days old or with an unparseable date do not. -/
theorem c4_staleness_witness :
    ("X", (646 : Int)) ∈ staleSorted ⟨2025, 10, 12⟩
      [[("id", FVal.s "X"), ("last_updated", FVal.s "2024-01-05")]] ∧
    staleEntry ⟨2025, 10, 12⟩
      [("id", FVal.s "Y"), ("last_updated", FVal.s "2025-07-14")] = none ∧
    staleEntry ⟨2025, 10, 12⟩
      [("id", FVal.s "Z"), ("last_updated", FVal.s "not-a-date")] = none := by
  refine ⟨?_, ?_, ?_⟩
  · exact (c4_staleness ⟨2025, 10, 12⟩
      [[("id", FVal.s "X"), ("last_updated", FVal.s "2024-01-05")]]).2.2.1
      [("id", FVal.s "X"), ("last_updated", FVal.s "2024-01-05")]
      (by decide) ("X", (646 : Int)) (by decide)
  · have h := (c4_staleness ⟨2025, 10, 12⟩ []).2.2.2.2.1
      [("id", FVal.s "Y"), ("last_updated", FVal.s "2025-07-14")]
      "2025-07-14" ⟨2025, 7, 14⟩ (by decide) (by decide)
    rw [h]
    decide
  · exact (c4_staleness ⟨2025, 10, 12⟩ []).2.2.2.2.2.2.1
      [("id", FVal.s "Z"), ("last_updated", FVal.s "not-a-date")]
      "not-a-date" (by decide) (by decide)

/-! ## The partition question (claim C1) -/

theorem listSum_map_add {α : Type} (f g : α → Nat) (l : List α) :
    (l.map (fun x => f x + g x)).sum = (l.map f).sum + (l.map g).sum := by
  induction l with
  | nil => rfl
  | cons a l ih => simp only [List.map_cons, List.sum_cons, ih]; omega

theorem sum_indicator_not_mem {c : String} {l : List String} (h : c ∉ l) :
    (l.map (fun k => if c = k then (1 : Nat) else 0)).sum = 0 := by
  induction l with
  | nil => rfl
  | cons a l ih =>
    have h1 : c ≠ a := fun hc => h (hc ▸ List.mem_cons_self a l)
    have h2 : c ∉ l := fun hc => h (List.mem_cons_of_mem a hc)
    simp [h1, ih h2]

theorem sum_indicator_mem {c : String} {l : List String} (hn : l.Nodup)
    (hm : c ∈ l) :
    (l.map (fun k => if c = k then (1 : Nat) else 0)).sum = 1 := by
  induction l with
  | nil => simp at hm
  | cons a l ih =>
    rcases List.mem_cons.1 hm with rfl | hmem
    · have hout : c ∉ l := (List.nodup_cons.1 hn).1
      simp [sum_indicator_not_mem hout]
    · have h1 : c ≠ a := by
        rintro rfl
        exact (List.nodup_cons.1 hn).1 hmem
      simp [h1, ih (List.nodup_cons.1 hn).2 hmem]

theorem length_eq_sum_groups (entities : List FMap) (ks : List String)
    (hn : ks.Nodup) (hc : ∀ e ∈ entities, classify_kind (recId e) ∈ ks) :
    (ks.map (fun k => (groupOf entities k).length)).sum = entities.length := by
  induction entities with
  | nil => simp [groupOf]
  | cons e es ih =>
    have hstep : ∀ k, (groupOf (e :: es) k).length =
        (if classify_kind (recId e) = k then (1 : Nat) else 0)
          + (groupOf es k).length := by
      intro k
      by_cases h : classify_kind (recId e) = k <;>
        simp [groupOf, List.filter_cons, h] <;> omega
    simp only [hstep]
    rw [listSum_map_add, sum_indicator_mem hn (hc e (List.mem_cons_self e es)),
      ih (fun x hx => hc x (List.mem_cons_of_mem e hx))]
    simp [Nat.add_comm]

theorem sortedKinds_nodup (entities : List FMap) :
    (sortedKinds entities).Nodup :=
  ((sortBy_perm _ _).nodup_iff).2 (List.nodup_dedup _)

theorem extendedKinds_nodup (entities : List FMap) :
    (extendedKinds entities).Nodup :=
  ((sortBy_perm _ _).nodup_iff).2 ((List.nodup_dedup _).filter _)

theorem stats_total (entities : List FMap) :
    ((statsRows entities).map (fun r => r.2)).sum = entities.length := by
  rw [statsRows, List.map_map]
  exact length_eq_sum_groups entities (sortedKinds entities)
    (sortedKinds_nodup entities)
    (fun e he => mem_sortedKinds.2 (mem_kindsOf.2 ⟨e, he, rfl⟩))

theorem countP_keyed_sections {entities : List FMap} {e : FMap}
    (he : e ∈ entities) (ks : List String) (hn : ks.Nodup) :
    ((ks.map (fun k => (k, sectionRowsOf entities k))).countP
        (fun s => decide (e ∈ s.2))) =
      if classify_kind (recId e) ∈ ks then 1 else 0 := by
  induction ks with
  | nil => simp
  | cons a ks ih =>
    have hrow : (e ∈ sectionRowsOf entities a) ↔ classify_kind (recId e) = a :=
      ⟨fun h => (mem_sectionRowsOf.1 h).2, fun h => mem_sectionRowsOf.2 ⟨he, h⟩⟩
    rw [List.map_cons, List.countP_cons, ih (List.nodup_cons.1 hn).2]
    by_cases hca : classify_kind (recId e) = a
    · have hout : classify_kind (recId e) ∉ ks := by
        rw [hca]
        exact (List.nodup_cons.1 hn).1
      have hmem : classify_kind (recId e) ∈ a :: ks := by
        rw [hca]
        exact List.mem_cons_self a ks
      have hd : decide (e ∈ (a, sectionRowsOf entities a).2) = true := by
        simp only [decide_eq_true_eq]
        exact hrow.2 hca
      rw [if_neg hout, if_pos hmem, hd, if_pos rfl]
    · have hd : decide (e ∈ (a, sectionRowsOf entities a).2) = false := by
        simp only [decide_eq_false_iff_not]
        intro hcon
        exact hca (hrow.1 hcon)
      have hiff : (classify_kind (recId e) ∈ a :: ks) ↔
          classify_kind (recId e) ∈ ks := by
        rw [List.mem_cons]
        exact ⟨fun h => h.resolve_left hca, Or.inr⟩
      rw [hd]
      by_cases hks : classify_kind (recId e) ∈ ks
      · rw [if_pos hks, if_pos (hiff.2 hks)]
        simp
      · rw [if_neg hks, if_neg (fun hcon => hks (hiff.1 hcon))]
        simp

/-- In the code, the fixed rendered kinds are a strict subset of
`base_kinds`: `CHR` and `OA` belong to the base set but get no table. -/
theorem fixed_subset_base : ∀ x ∈ fixedKindOrder, x ∈ baseKindsList := by
  intro x hx
  fin_cases hx <;> decide

/-- Claim C1 (amended): the per-kind statistics counts always sum to the
total; a collected record appears in exactly one rendered category table
when its kind is one of the seven fixed rendered kinds or outside
`base_kinds`, and in no table at all when its kind is in `base_kinds` but
not rendered (that is, `CHR` or `OA`). -/
theorem c1_partition_amended (entities : List FMap) :
    ((statsRows entities).map (fun r => r.2)).sum = entities.length ∧
    ∀ e, e ∈ entities →
      ((classify_kind (recId e) ∈ fixedKindOrder ∨
        classify_kind (recId e) ∉ baseKindsList) →
        (allSections entities).countP (fun s => decide (e ∈ s.2)) = 1) ∧
      ((classify_kind (recId e) ∈ baseKindsList ∧
        classify_kind (recId e) ∉ fixedKindOrder) →
        (allSections entities).countP (fun s => decide (e ∈ s.2)) = 0) := by
  refine ⟨stats_total entities, ?_⟩
  intro e he
  have hgrp : e ∈ groupOf entities (classify_kind (recId e)) :=
    mem_groupOf.2 ⟨he, rfl⟩
  have hne : ¬ (groupOf entities (classify_kind (recId e))).isEmpty := by
    intro hemp
    rw [List.isEmpty_iff] at hemp
    rw [hemp] at hgrp
    simp at hgrp
  have hfix : (allSections entities).countP (fun s => decide (e ∈ s.2)) =
      ((if classify_kind (recId e) ∈
          fixedKindOrder.filter (fun k => !(groupOf entities k).isEmpty)
        then 1 else 0) : Nat)
      + (if classify_kind (recId e) ∈ extendedKinds entities then 1 else 0) := by
    rw [allSections, List.countP_append, fixedSections, extendedSections,
      countP_keyed_sections he _ ((by decide : fixedKindOrder.Nodup).filter _),
      countP_keyed_sections he _ (extendedKinds_nodup entities)]
  have hmem_filter : classify_kind (recId e) ∈
      fixedKindOrder.filter (fun k => !(groupOf entities k).isEmpty) ↔
      classify_kind (recId e) ∈ fixedKindOrder := by
    rw [List.mem_filter]
    constructor
    · exact fun h => h.1
    · exact fun h => ⟨h, by simpa using hne⟩
  have hmem_ext : classify_kind (recId e) ∈ extendedKinds entities ↔
      classify_kind (recId e) ∉ baseKindsList := by
    rw [extendedKinds, mem_sortBy, List.mem_filter]
    constructor
    · intro h
      have := h.2
      simpa using this
    · intro h
      refine ⟨mem_kindsOf.2 ⟨e, he, rfl⟩, by simpa using h⟩
  constructor
  · rintro (hin | hout)
    · have hbase : classify_kind (recId e) ∈ baseKindsList :=
        fixed_subset_base _ hin
      rw [hfix, if_pos (hmem_filter.2 hin),
        if_neg (fun hc => (hmem_ext.1 hc) hbase)]
    · have hnfix : classify_kind (recId e) ∉ fixedKindOrder :=
        fun hc => hout (fixed_subset_base _ hc)
      rw [hfix, if_neg (fun hc => hnfix (hmem_filter.1 hc)),
        if_pos (hmem_ext.2 hout)]
  · rintro ⟨hbase, hnfix⟩
    rw [hfix, if_neg (fun hc => hnfix (hmem_filter.1 hc)),
      if_neg (fun hc => (hmem_ext.1 hc) hbase)]

/-- Counterexample to C1 as stated: a run whose single collected record
has kind `CHR` shows in the statistics (count 1, total 1) yet appears in
no rendered category table — there are no tables at all. -/
theorem c1_partition_counterexample :
    [("id", FVal.s "ZZ.CHR.001")] ∈ ([[("id", FVal.s "ZZ.CHR.001")]] : List FMap) ∧
    allSections [[("id", FVal.s "ZZ.CHR.001")]] = [] ∧
    statsRows [[("id", FVal.s "ZZ.CHR.001")]] = [("CHR", 1)] ∧
    ([[("id", FVal.s "ZZ.CHR.001")]] : List FMap).length = 1 := by
  decide

/-- Witness for the amended C1 at a one-record run of kind `M`. -/
theorem c1_partition_amended_witness :
    ((statsRows [[("id", FVal.s "DP.M.001")]]).map (fun r => r.2)).sum = 1 ∧
    (allSections [[("id", FVal.s "DP.M.001")]]).countP
      (fun s => decide ([("id", FVal.s "DP.M.001")] ∈ s.2)) = 1 := by
  have h := c1_partition_amended [[("id", FVal.s "DP.M.001")]]
  exact ⟨h.1, (h.2 [("id", FVal.s "DP.M.001")] (by decide)).1 (Or.inl (by decide))⟩

/-! ## Claim C2: when the parser yields no record -/

/-- The no-record condition of the (amended) claim, stated as the spec
words it: unreadable file, unmatched delimiters, a block that fails to
parse, a non-mapping parse, or a mapping without `id`. -/
def fmNoRecord (f : MdFile) : Bool :=
  match f.content with
  | none => true
  | some content =>
    match extractFrontmatter content with
    | none => true
    | some block =>
      match simpleYaml block with
      | .map m => !(hasKey m "id")
      | _ => true


theorem isSome_omap {α β : Type} (f : α → β) (o : Option α) :
    (o.map f).isSome = o.isSome := by
  cases o <;> rfl

theorem startsWith3Dashes_iff (cs : List Char) :
    startsWith3Dashes cs = true ↔ ∃ q, cs = '-' :: '-' :: '-' :: q := by
  rcases cs with _ | ⟨a, _ | ⟨b, _ | ⟨c, q⟩⟩⟩
  · simp [startsWith3Dashes]
  · simp [startsWith3Dashes]
  · simp [startsWith3Dashes]
  · simp only [startsWith3Dashes, Bool.and_eq_true, beq_iff_eq]
    constructor
    · rintro ⟨⟨rfl, rfl⟩, rfl⟩
      exact ⟨q, rfl⟩
    · rintro ⟨q', hq⟩
      injection hq with h1 hq
      injection hq with h2 hq
      injection hq with h3 _
      exact ⟨⟨h1, h2⟩, h3⟩

theorem splitClose_isSome_iff : ∀ cs : List Char,
    (splitClose cs).isSome = true ↔
      ∃ p q, cs = p ++ '\n' :: '-' :: '-' :: '-' :: q
  | [] => by
    simp only [splitClose, Option.isSome_none]
    constructor
    · intro h
      exact absurd h (by decide)
    · rintro ⟨p, q, hpq⟩
      rcases p with _ | ⟨a, p⟩ <;> simp at hpq
  | c :: cs => by
    rw [splitClose]
    by_cases hb : (c == '\n' && startsWith3Dashes cs) = true
    · rw [if_pos hb]
      simp only [Option.isSome_some, true_iff]
      rcases Bool.and_eq_true_iff.1 hb with ⟨hc, hd⟩
      rcases (startsWith3Dashes_iff cs).1 hd with ⟨q, rfl⟩
      exact ⟨[], q, by simp [beq_iff_eq.1 hc]⟩
    · rw [if_neg hb, isSome_omap, splitClose_isSome_iff cs]
      constructor
      · rintro ⟨p, q, rfl⟩
        exact ⟨c :: p, q, rfl⟩
      · rintro ⟨p, q, hpq⟩
        rcases p with _ | ⟨c', p⟩
        · rw [List.nil_append] at hpq
          injection hpq with h1 h2
          exfalso
          apply hb
          rw [Bool.and_eq_true_iff]
          exact ⟨beq_iff_eq.2 h1, (startsWith3Dashes_iff _).2 ⟨q, h2⟩⟩
        · rw [List.cons_append] at hpq
          injection hpq with h1 h2
          exact ⟨p, q, h2⟩

theorem fmScan_isSome_iff : ∀ cs : List Char,
    (fmScan cs).isSome = true ↔
      ∃ w r, cs = w ++ '\n' :: r ∧ w.all isPyWs = true ∧
        ∃ p q, r = p ++ '\n' :: '-' :: '-' :: '-' :: q
  | [] => by
    simp only [fmScan, Option.isSome_none]
    constructor
    · intro h
      exact absurd h (by decide)
    · rintro ⟨w, r, hw, -, -⟩
      rcases w with _ | ⟨a, w⟩ <;> simp at hw
  | c :: cs => by
    rw [fmScan]
    by_cases hws : isPyWs c
    · rw [if_pos hws]
      constructor
      · intro h
        rcases hscan : fmScan cs with _ | g
        · rw [hscan] at h
          by_cases hnl : c == '\n'
          · rw [if_pos hnl] at h
            rcases (splitClose_isSome_iff cs).1 h with ⟨p, q, hpq⟩
            refine ⟨[], cs, by simp [beq_iff_eq.1 hnl], by simp, p, q, hpq⟩
          · rw [if_neg hnl] at h
            exact absurd h (by decide)
        · have h' : (fmScan cs).isSome = true := by rw [hscan]; rfl
          rcases (fmScan_isSome_iff cs).1 h' with ⟨w, r, hsplit, hall, p, q, hr⟩
          exact ⟨c :: w, r, by rw [List.cons_append, hsplit],
            by simp [hws, hall], p, q, hr⟩
      · rintro ⟨w, r, hcs, hall, p, q, hr⟩
        rcases w with _ | ⟨c', w⟩
        · rw [List.nil_append] at hcs
          injection hcs with h1 h2
          have hclose : (splitClose cs).isSome = true := by
            rw [splitClose_isSome_iff cs, h2]
            exact ⟨p, q, hr⟩
          rcases hscan : fmScan cs with _ | g
          · rw [if_pos (beq_iff_eq.2 h1)]
            exact hclose
          · rfl
        · rw [List.cons_append] at hcs
          injection hcs with h1 h2
          rw [List.all_cons, Bool.and_eq_true_iff] at hall
          have hsub : (fmScan cs).isSome = true :=
            (fmScan_isSome_iff cs).2 ⟨w, r, h2, hall.2, p, q, hr⟩
          rcases hscan : fmScan cs with _ | g
          · rw [hscan] at hsub
            exact absurd hsub (by decide)
          · rfl
    · rw [if_neg hws]
      simp only [Option.isSome_none]
      constructor
      · intro h
        exact absurd h (by decide)
      · rintro ⟨w, r, hcs, hall, -⟩
        rcases w with _ | ⟨c', w⟩
        · rw [List.nil_append] at hcs
          injection hcs with h1 h2
          exact (hws (by rw [h1]; decide)).elim
        · rw [List.cons_append] at hcs
          injection hcs with h1 h2
          rw [List.all_cons, Bool.and_eq_true_iff] at hall
          exact (hws (h1 ▸ hall.1)).elim

/-- Claim C2 (amended): `parse_frontmatter` yields no record exactly when
the file is unreadable, the delimiters do not match, the block fails to
parse, parses to a non-mapping, or the mapping lacks `id`; and the
delimiters match exactly when the file starts with `---` followed by
whitespace up to a newline, an arbitrary block, and a closing line that
merely begins with `---` (neither delimiter line needs to be exactly
`---`). -/
theorem c2_no_record_amended (f : MdFile) :
    (parse_frontmatter f = none ↔ fmNoRecord f = true) ∧
    ∀ c : String, (extractFrontmatter c).isSome = true ↔
      ∃ w mid tail : List Char,
        c.toList =
          '-' :: '-' :: '-' ::
            (w ++ '\n' :: (mid ++ '\n' :: '-' :: '-' :: '-' :: tail)) ∧
        w.all isPyWs = true := by
  constructor
  · unfold parse_frontmatter fmNoRecord
    cases hc : f.content with
    | none => simp
    | some content =>
      cases he : extractFrontmatter content with
      | none => simp [he]
      | some block =>
        cases hy : simpleYaml block with
        | err => simp [he, hy]
        | scalar v => simp [he, hy]
        | map m =>
          by_cases hid : hasKey m "id"
          · simp [he, hy, hid]
          · simp [he, hy, hid]
  · intro c
    unfold extractFrontmatter
    by_cases hd : startsWith3Dashes c.toList
    · rw [if_pos hd, isSome_omap]
      rcases (startsWith3Dashes_iff _).1 hd with ⟨rest, hrest⟩
      rw [hrest]
      simp only [List.drop_succ_cons, List.drop_zero]
      rw [fmScan_isSome_iff rest]
      constructor
      · rintro ⟨w, r, hsplit, hall, p, q, hr⟩
        subst hsplit
        subst hr
        exact ⟨w, p, q, rfl, hall⟩
      · rintro ⟨w, mid, tail, hcs, hall⟩
        injection hcs with h1 hcs
        injection hcs with h2 hcs
        injection hcs with h3 hcs
        exact ⟨w, mid ++ '\n' :: '-' :: '-' :: '-' :: tail, hcs, hall,
          mid, tail, rfl⟩
    · rw [if_neg hd]
      simp only [Option.isSome_none]
      constructor
      · intro h
        exact absurd h (by decide)
      · rintro ⟨w, mid, tail, hcs, hall⟩
        exact (hd ((startsWith3Dashes_iff _).2 ⟨_, hcs⟩)).elim

/-- Counterexample to C2 as stated: a file whose opening line is
`"--- "` and whose closing line is `"--- tail"` — neither is exactly
`---` — still produces a record. -/
theorem c2_exact_delimiters_counterexample :
    (parse_frontmatter ⟨"p/x.md", "x.md", some "--- \nid: a\n--- tail"⟩).isSome
      = true ∧
    splitChar '\n' "--- \nid: a\n--- tail" = ["--- ", "id: a", "--- tail"] ∧
    ("--- " ≠ "---") ∧ ("--- tail" ≠ "---") := by decide

/-! ## Claim C3: the ordered fallback of domain detection -/

/-- The per-file step of strategy 3: skip underscore-prefixed files and
the manifest; a valid record with a dotted identifier gives its first
segment. -/
def scanDomFun (f : MdFile) : Option String :=
  if underscoreName f.name || f.name == "00-pack-manifest.md" then none
  else
    (parse_frontmatter f).bind (fun fm =>
      match splitChar '.' (recId fm) with
      | a :: _ :: _ => some a
      | _ => none)

/-- Strategy 1 of the (amended) claim: the `pack_id` field of the
manifest's frontmatter, available only when the manifest parses as a valid
record (which requires an `id` field too). -/
def strategyPackId (p : PackDir) : Option String :=
  p.manifest.bind (fun mf =>
    (parse_frontmatter mf).bind (fun fm => (getVal fm "pack_id").map pyToStr))

/-- Strategy 2: a Pack ID code matched in the manifest's raw text. -/
def strategyBodyText (p : PackDir) : Option String :=
  p.manifest.bind (fun mf => mf.content.bind searchPackId)

/-- Strategy 3 of the (amended) claim: among the sorted tree, the first
file kept by `scanDomFun` with a dotted record identifier gives its first
segment; files whose record identifier has no dot are passed over. -/
def strategyFirstEntity (p : PackDir) : Option String :=
  (sortFiles p.files).findSome? scanDomFun

/-- Strategy 4: the directory name, upper-cased, first two characters. -/
def strategyDirName (p : PackDir) : String :=
  upperTwo p.dirName

/-- The ordered-fallback formulation of the claim. -/
def detectDomainStrategies (p : PackDir) : String :=
  (((strategyPackId p).orElse (fun _ => strategyBodyText p)).orElse
    (fun _ => strategyFirstEntity p)).getD (strategyDirName p)

theorem scanEntityDomain_eq (l : List MdFile) :
    scanEntityDomain l = l.findSome? scanDomFun := by
  induction l with
  | nil => rfl
  | cons f fs ih =>
    rw [scanEntityDomain, List.findSome?_cons]
    by_cases hs : (underscoreName f.name || f.name == "00-pack-manifest.md") = true
    · have hf : scanDomFun f = none := by
        rw [scanDomFun, if_pos hs]
      rw [if_pos hs, hf, ih]
    · have hf : scanDomFun f = (parse_frontmatter f).bind (fun fm =>
          match splitChar '.' (recId fm) with
          | a :: _ :: _ => some a
          | _ => none) := by
        rw [scanDomFun, if_neg hs]
      rw [if_neg hs, hf]
      cases hp : parse_frontmatter f with
      | none => exact ih
      | some fm =>
        rcases hsp : splitChar '.' (recId fm) with _ | ⟨a, _ | ⟨b, rest2⟩⟩
        · dsimp only [Option.some_bind]
          rw [hsp]
          exact ih
        · dsimp only [Option.some_bind]
          rw [hsp]
          exact ih
        · dsimp only [Option.some_bind]
          rw [hsp]

/-- Claim C3 (amended): `detect_domain` is exactly the ordered fallback
pack-id field (of a valid manifest record), then body-text match, then
first record with a dotted identifier, then directory name. -/
theorem c3_ordered_fallback_amended (p : PackDir) :
    detect_domain p = detectDomainStrategies p := by
  unfold detect_domain detectDomainStrategies strategyPackId strategyBodyText
    strategyFirstEntity strategyDirName
  rw [← scanEntityDomain_eq]
  cases hm : p.manifest with
  | none =>
    cases hsc : scanEntityDomain (sortFiles p.files) <;>
      simp [hsc, Option.orElse]
  | some mf =>
    cases hp : parse_frontmatter mf with
    | none =>
      cases hc : mf.content with
      | none =>
        cases hsc : scanEntityDomain (sortFiles p.files) <;>
          simp [hp, hc, hsc, Option.orElse]
      | some c =>
        cases hs : searchPackId c with
        | none =>
          cases hsc : scanEntityDomain (sortFiles p.files) <;>
            simp [hp, hc, hs, hsc, Option.orElse]
        | some dom => simp [hp, hc, hs, Option.orElse]
    | some fm =>
      cases hv : getVal fm "pack_id" with
      | none =>
        cases hc : mf.content with
        | none =>
          cases hsc : scanEntityDomain (sortFiles p.files) <;>
            simp [hp, hv, hc, hsc, Option.orElse]
        | some c =>
          cases hs : searchPackId c with
          | none =>
            cases hsc : scanEntityDomain (sortFiles p.files) <;>
              simp [hp, hv, hc, hs, hsc, Option.orElse]
          | some dom => simp [hp, hv, hc, hs, Option.orElse]
      | some v => simp [hp, hv, Option.orElse]

/-- Counterexample to C3 as stated: the manifest frontmatter carries
`pack_id: DP` but no `id`, so strategy 1 (as the claim words it) would
give `DP`; the first document's valid record has the dot-less id `FOO`,
so strategy 3 (as the claim words it) would give `FOO`; the code skips
both and returns `BB` from the second document. -/
theorem c3_ordered_fallback_counterexample :
    detect_domain
      ⟨[⟨"a.md", "a.md", some "---\nid: FOO\n---"⟩,
        ⟨"b.md", "b.md", some "---\nid: BB.X\n---"⟩],
       some ⟨"d/00-pack-manifest.md", "00-pack-manifest.md",
         some "---\npack_id: DP\n---"⟩, "dir"⟩ = "BB" ∧
    extractFrontmatter "---\npack_id: DP\n---" = some "pack_id: DP" ∧
    simpleYaml "pack_id: DP" = .map [("pack_id", FVal.s "DP")] ∧
    parse_frontmatter ⟨"d/00-pack-manifest.md", "00-pack-manifest.md",
      some "---\npack_id: DP\n---"⟩ = none ∧
    (parse_frontmatter ⟨"a.md", "a.md", some "---\nid: FOO\n---"⟩).map recId
      = some "FOO" ∧
    splitChar '.' "FOO" = ["FOO"] ∧
    sortFiles [⟨"a.md", "a.md", some "---\nid: FOO\n---"⟩,
        ⟨"b.md", "b.md", some "---\nid: BB.X\n---"⟩] =
      [⟨"a.md", "a.md", some "---\nid: FOO\n---"⟩,
       ⟨"b.md", "b.md", some "---\nid: BB.X\n---"⟩] ∧
    ("BB" ≠ "DP") ∧ ("BB" ≠ "FOO") := by decide

/-! ## Claim C7: the name fallbacks -/

theorem find?_map_insert (k : String) (v : FVal) : ∀ m : FMap,
    (m.map (fun p => if p.1 == k then (k, v) else p)).find?
        (fun p => p.1 == k)
      = (m.find? (fun p => p.1 == k)).map (fun _ => (k, v))
  | [] => rfl
  | p0 :: m => by
    rw [List.map_cons, List.find?_cons, List.find?_cons]
    by_cases hp : (p0.1 == k) = true
    · rw [if_pos hp, hp]
      simp
    · rw [Bool.not_eq_true] at hp
      rw [if_neg (by rw [hp]; decide), hp]
      exact find?_map_insert k v m

theorem find?_map_insert_ne (k k' : String) (v : FVal) (h : k' ≠ k) :
    ∀ m : FMap,
    (m.map (fun p => if p.1 == k then (k, v) else p)).find?
        (fun p => p.1 == k')
      = m.find? (fun p => p.1 == k')
  | [] => rfl
  | p0 :: m => by
    rw [List.map_cons, List.find?_cons, List.find?_cons]
    by_cases hp : (p0.1 == k) = true
    · have hpk : p0.1 = k := beq_iff_eq.1 hp
      have h1 : (k == k') = false := beq_eq_false_iff_ne.2 (Ne.symm h)
      have h2 : (p0.1 == k') = false := by
        rw [hpk]
        exact h1
      rw [if_pos hp, h2]
      have h3 : ((k, v).1 == k') = false := h1
      rw [h3]
      exact find?_map_insert_ne k k' v h m
    · rw [Bool.not_eq_true] at hp
      rw [if_neg (by rw [hp]; decide)]
      by_cases hp' : (p0.1 == k') = true
      · rw [hp']
      · rw [Bool.not_eq_true] at hp'
        rw [hp']
        exact find?_map_insert_ne k k' v h m

theorem find?_append_single (pr : String × FVal → Bool) (x : String × FVal) :
    ∀ m : FMap,
    (m ++ [x]).find? pr =
      (match m.find? pr with
       | some p => some p
       | none => if pr x then some x else none)
  | [] => by
    rw [List.nil_append, List.find?_cons]
    by_cases hx : pr x = true
    · rw [hx]
      rfl
    · rw [Bool.not_eq_true] at hx
      rw [hx]
      simp [hx]
  | p0 :: m => by
    rw [List.cons_append, List.find?_cons, List.find?_cons]
    by_cases hp : pr p0 = true
    · rw [hp]
    · rw [Bool.not_eq_true] at hp
      rw [hp]
      exact find?_append_single pr x m

theorem getVal_insertPair_self (m : FMap) (k : String) (v : FVal) :
    getVal (insertPair m k v) k = some v := by
  unfold insertPair
  by_cases hk : hasKey m k
  · rw [if_pos hk]
    unfold getVal
    rw [find?_map_insert]
    unfold hasKey getVal at hk
    rcases hf : m.find? (fun p => p.1 == k) with _ | p
    · rw [hf] at hk
      simp at hk
    · rw [hf]
      rfl
  · rw [if_neg hk]
    unfold getVal
    rw [find?_append_single]
    unfold hasKey getVal at hk
    rcases hf : m.find? (fun p => p.1 == k) with _ | p
    · rw [hf]
      simp
    · rw [hf] at hk
      simp at hk

theorem getVal_insertPair_ne (m : FMap) (k k' : String) (v : FVal)
    (h : k' ≠ k) :
    getVal (insertPair m k v) k' = getVal m k' := by
  unfold insertPair
  by_cases hk : hasKey m k
  · rw [if_pos hk]
    unfold getVal
    rw [find?_map_insert_ne k k' v h]
  · rw [if_neg hk]
    unfold getVal
    rw [find?_append_single]
    have hkk : ((k, v).1 == k') = false := beq_eq_false_iff_ne.2 (Ne.symm h)
    rcases hf : m.find? (fun p => p.1 == k') with _ | p
    · rw [hf]
      simp [hkk]
    · rw [hf]

theorem hasKey_insertPair_ne (m : FMap) (k k' : String) (v : FVal)
    (h : k' ≠ k) :
    hasKey (insertPair m k v) k' = hasKey m k' := by
  unfold hasKey
  rw [getVal_insertPair_ne m k k' v h]

/-- Claim C7 (amended): for a parsed record whose frontmatter mapping has
an `id` but no `name`, the name is derived by the ordered fallbacks —
first a heading line `## [<anything>] <Name>` anywhere in the file (the
search is not restricted to the document body), else the file's base name
with the identifier-style prefix stripped, hyphens to spaces and
title-cased, but only when that stripped slug is nonempty; when it is
empty, no name field is set at all.  In particular `DP.M.001` in
`DP.M.001-knowledge-extraction.md` with no heading yields
`Knowledge Extraction`. -/
theorem c7_name_fallback_amended (f : MdFile) (content block : String)
    (ym : FMap)
    (hc : f.content = some content)
    (he : extractFrontmatter content = some block)
    (hy : simpleYaml block = .map ym)
    (hid : hasKey ym "id" = true)
    (hname : hasKey ym "name" = false) :
    (∃ m, parse_frontmatter f = some m ∧
      getVal m "name" =
        (match headingName content with
         | some nm => some (FVal.s nm)
         | none =>
           if stripLeadingId (stemOf f.name) ≠ "" then
             some (FVal.s (titleCase
               (replaceChar '-' ' ' (stripLeadingId (stemOf f.name)))))
           else none)) ∧
    parse_frontmatter ⟨"p/DP.M.001-knowledge-extraction.md",
        "DP.M.001-knowledge-extraction.md", some "---\nid: DP.M.001\n---"⟩ =
      some [("id", FVal.s "DP.M.001"),
        ("_filepath", FVal.s "p/DP.M.001-knowledge-extraction.md"),
        ("name", FVal.s "Knowledge Extraction")] := by
  refine ⟨?_, by decide⟩
  unfold parse_frontmatter
  rw [hc]
  simp only [he, hy, hid, if_true]
  have hn1 : hasKey (insertPair ym "_filepath" (FVal.s f.path)) "name"
      = false := by
    rw [hasKey_insertPair_ne ym "_filepath" "name" (FVal.s f.path) (by decide)]
    exact hname
  rw [hn1]
  rw [if_neg (by decide : ¬ (false = true))]
  cases hh : headingName content with
  | some nm =>
    refine ⟨_, rfl, ?_⟩
    rw [getVal_insertPair_self]
  | none =>
    by_cases hslug : stripLeadingId (stemOf f.name) ≠ ""
    · rw [if_pos hslug]
      refine ⟨_, rfl, ?_⟩
      rw [if_pos hslug, getVal_insertPair_self]
    · rw [if_neg hslug]
      refine ⟨_, rfl, ?_⟩
      rw [if_neg hslug]
      rw [getVal_insertPair_ne ym "_filepath" "name" (FVal.s f.path) (by decide)]
      unfold hasKey at hname
      rcases hgv : getVal ym "name" with _ | v
      · rfl
      · rw [hgv] at hname
        simp at hname

/-- Witness for the amended C7: a record in `x.md` with no heading gets
the slug-derived name `X`. -/
theorem c7_name_fallback_amended_witness :
    ∃ m, parse_frontmatter ⟨"p/x.md", "x.md", some "---\nid: a\n---"⟩ = some m ∧
      getVal m "name" = some (FVal.s "X") := by
  obtain ⟨⟨m, hm, hv⟩, -⟩ := c7_name_fallback_amended
    ⟨"p/x.md", "x.md", some "---\nid: a\n---"⟩ "---\nid: a\n---" "id: a"
    [("id", FVal.s "a")] rfl (by decide) (by decide) (by decide) (by decide)
  refine ⟨m, hm, ?_⟩
  rw [hv]
  decide

/-- Counterexample to C7 as stated: for file `DP.M.001.md` the stripped
slug is empty, so the code sets no name at all, while the claim's second
fallback would assign the (empty) transformed slug as the name. -/
theorem c7_name_fallback_counterexample :
    parse_frontmatter ⟨"p/DP.M.001.md", "DP.M.001.md",
        some "---\nid: DP.M.001\n---"⟩ =
      some [("id", FVal.s "DP.M.001"), ("_filepath", FVal.s "p/DP.M.001.md")] ∧
    hasKey [("id", FVal.s "DP.M.001"), ("_filepath", FVal.s "p/DP.M.001.md")]
      "name" = false ∧
    headingName "---\nid: DP.M.001\n---" = none ∧
    stripLeadingId (stemOf "DP.M.001.md") = "" := by decide
